import Mathlib

/-!
Verification development for a browser extension that aggregates financial
data providers, news providers and an LLM endpoint.  The JavaScript sources
(`api-clients.js`, `llm-processor.js`) are embedded shallowly: each class
method becomes a pure Lean function over an explicit state, network fetches
become explicit outcome parameters, and JavaScript `Map` objects become
insertion-ordered association lists.  Times are integer milliseconds.
-/

/-! ### JavaScript `Map` model

A JS `Map` preserves insertion order; `set` on an existing key updates the
value in place (the key keeps its original position), and `keys().next().value`
is the key of the earliest-inserted still-present entry. -/

abbrev JsMap (α : Type) : Type := List (String × α)

def jsSet {α : Type} : JsMap α → String → α → JsMap α
  | [], k, v => [(k, v)]
  | (k0, v0) :: rest, k, v =>
      if k0 = k then (k0, v) :: rest else (k0, v0) :: jsSet rest k v

def jsGet {α : Type} : JsMap α → String → Option α
  | [], _ => none
  | (k0, v0) :: rest, k => if k0 = k then some v0 else jsGet rest k

def jsHas {α : Type} (m : JsMap α) (k : String) : Bool :=
  (jsGet m k).isSome

/-! ### LLM gateway (`llm-processor.js`)

State of an `LLMProcessor` instance: the fields touched by `makeLLMCall` and
`updateConfig` (`apiKey`, `baseUrl`, `model`, `failureCount`,
`remoteDisabled`).  The prompt-template cache is modelled separately (see
`storeInCache`).  The persisted copy written by `chrome.storage.local.set`
is an external side effect and is not part of the state. -/

structure LLMState where
  apiKey : Option String
  baseUrl : String
  model : String
  failureCount : Nat
  remoteDisabled : Bool
deriving DecidableEq, Repr

/-- The five prompt types keyed by `promptType` in the source. -/
inductive PromptType where
  | taskUnderstanding
  | conditionAnalysis
  | dataInterpretation
  | decisionMaking
  | notificationContent
deriving DecidableEq, Repr

/-- JS truthiness of an optional string (`null`/`undefined` and the empty
string are falsy, every other string truthy). -/
def jsTruthy : Option String → Bool
  | some s => s ≠ ""
  | none => false

/-- Body of an LLM HTTP reply, as seen by `parseLLMResponse`: either
`response.choices[0].message.content` is extractable as a string, or the
shape is malformed and the extraction itself throws. -/
inductive LLMBody where
  | content (s : String)
  | malformed
deriving DecidableEq, Repr

/-- Result of `parseLLMResponse`: a decoded JSON value (type parameter `α`
abstracts the host JSON value type), or a wrapper object carrying a text, a
`parsed` flag and an optional `timestamp` field. -/
inductive ParseResult (α : Type) where
  | jsonValue (v : α)
  | textWrap (text : String) ( parsed : Bool) (timestamp : Option Int)
deriving DecidableEq, Repr

/-- `parseLLMResponse` (llm-processor.js lines 162-185).  `jsonParse`
abstracts the host `JSON.parse`, returning `none` exactly when it would
throw; `now` abstracts `Date.now()`.  On successful JSON decode the decoded
value is returned; on decode failure the raw text is wrapped with
`parsed := true` and a timestamp; when the content extraction itself fails
(malformed reply shape) a fixed text is wrapped with `parsed := false` and
no timestamp.  The function is total: no input raises. -/
def parseLLMResponse {α : Type} (jsonParse : String → Option α) (now : Int) :
    LLMBody → ParseResult α
  | .content s =>
      match jsonParse s with
      | some v => ParseResult.jsonValue v
      | none => ParseResult.textWrap s true (some now)
  | .malformed => ParseResult.textWrap "Unable to process LLM response" false none

/-- Outcome of the `fetch` in `makeLLMCall`: the fetch (or `response.json()`)
throws, or the response is non-ok with an HTTP status, or it is ok with a
JSON body. -/
inductive FetchOutcome where
  | netError
  | httpError (status : Nat)
  | ok (body : LLMBody)
deriving DecidableEq, Repr

/-- A failure outcome is anything that lands in the `catch` of
`makeLLMCall`: a thrown fetch/decode error or any non-ok HTTP status. -/
def FetchOutcome.isFailure : FetchOutcome → Bool
  | .netError => true
  | .httpError _ => true
  | .ok _ => false

/-- Result of `makeLLMCall`: either the parsed remote reply, or an
invocation of `fallbackProcessing(promptType, prompt)` (the deterministic
rule-based routine; its internals are not needed by any claim, so the
invocation is recorded with its arguments). -/
inductive CallResult (α : Type) where
  | remote (r : ParseResult α)
  | fallback (ptype : PromptType) (prompt : String)
deriving DecidableEq, Repr

/-- The `catch` block of `makeLLMCall` (lines 149-159): increment the
failure counter and, once it reaches 1, clear the key and disable remote
calls. -/
def recordFailure (st : LLMState) : LLMState :=
  let st1 : LLMState := { st with failureCount := st.failureCount + 1 }
  if st1.failureCount ≥ 1 then
    { st1 with apiKey := none, remoteDisabled := true }
  else st1

/-- `makeLLMCall` (llm-processor.js lines 106-160).  Returns the new state,
whether a remote attempt (fetch) was made, and the call result.  `outcome`
abstracts the network; it is consulted only when a remote attempt happens.
A 400/401 status additionally disables remote calls and clears the key
before the thrown error reaches the `catch` block. -/
def makeLLMCall {α : Type} (st : LLMState) (jsonParse : String → Option α)
    (now : Int) (outcome : FetchOutcome) (prompt : String) (ptype : PromptType) :
    LLMState × Bool × CallResult α :=
  if jsTruthy st.apiKey = false ∨ st.remoteDisabled then
    (st, false, CallResult.fallback ptype prompt)
  else
    match outcome with
    | .ok body => (st, true, CallResult.remote (parseLLMResponse jsonParse now body))
    | .httpError s =>
        let st1 : LLMState :=
          if s = 400 ∨ s = 401 then { st with remoteDisabled := true, apiKey := none }
          else st
        (recordFailure st1, true, CallResult.fallback ptype prompt)
    | .netError => (recordFailure st, true, CallResult.fallback ptype prompt)

/-- State reached after a sequence of `makeLLMCall` invocations, each with
its own clock value, network outcome, prompt and prompt type. -/
def runCalls {α : Type} (jsonParse : String → Option α) :
    LLMState → List (Int × FetchOutcome × String × PromptType) → LLMState
  | st, [] => st
  | st, (now, o, p, t) :: rest =>
      runCalls jsonParse (makeLLMCall st jsonParse now o p t).1 rest

/-- `updateConfig` (llm-processor.js lines 444-457): unconditionally
replaces the API key, and replaces base URL / model only when the passed
value is truthy.  It touches neither `failureCount` nor `remoteDisabled`.
The `chrome.storage.local.set` persistence is an external side effect. -/
def updateConfig (st : LLMState) (apiKey baseUrl model : Option String) : LLMState :=
  { st with
    apiKey := apiKey
    baseUrl := if jsTruthy baseUrl then baseUrl.getD st.baseUrl else st.baseUrl
    model := if jsTruthy model then model.getD st.model else st.model }

/-! ### LLM prompt cache (`storeInCache`, llm-processor.js lines 431-441)

The stored value spreads the original object and adds a `cacheTimestamp`
field. -/

/-- A cached LLM result: the stored value plus the `cacheTimestamp` field
added on insertion. -/
structure CachedEntry (α : Type) where
  value : α
  cacheTimestamp : Int
deriving DecidableEq, Repr

/-- `this.maxCacheSize` set in the `LLMProcessor` constructor. -/
def maxCacheSize : Nat := 100

/-- `storeInCache` (llm-processor.js lines 431-441): when the cache has
reached `maxCacheSize` entries, delete the first (earliest-inserted) key,
then insert/overwrite the new entry.  On an empty cache the
`keys().next().value` would be `undefined` and the delete a no-op. -/
def storeInCache {α : Type} (now : Int) (cache : JsMap (CachedEntry α))
    (key : String) (value : α) : JsMap (CachedEntry α) :=
  let c1 : JsMap (CachedEntry α) :=
    if maxCacheSize ≤ cache.length then
      match cache with
      | [] => []
      | _ :: rest => rest
    else cache
  jsSet c1 key { value := value, cacheTimestamp := now }

/-! ### Stock data client (`api-clients.js`)

Provider HTTP bodies are modelled post-JSON-decode, with numeric string
fields already carried as the rational numbers `parseFloat`/`parseInt`
would produce; a fetch-or-decode failure is an `Except.error` carrying the
thrown message.  Arithmetic on provider data (Yahoo's change computation)
is modelled exactly over `ℚ`; no claim depends on its rounding. -/

/-- Normalized stock snapshot produced by the provider adapters.  Alpha
Vantage reports `changePercent` as a raw string, Yahoo and Finnhub as a
number, hence the sum type.  Finnhub quotes carry no volume field. -/
structure Quote where
  symbol : String
  price : ℚ
  «open» : ℚ
  high : ℚ
  low : ℚ
  volume : Option ℚ
  change : ℚ
  changePercent : ℚ ⊕ String
  timestamp : Int
  source : String
deriving DecidableEq, Repr

/-- The `Global Quote` object of an Alpha Vantage reply, with its numeric
string fields as the parsed numbers. -/
structure AlphaRawQuote where
  price : ℚ
  «open» : ℚ
  high : ℚ
  low : ℚ
  volume : ℚ
  change : ℚ
  changePercent : String
deriving DecidableEq, Repr

/-- Decoded Alpha Vantage reply body: whether a `Note` field is present
(rate-limit marker) and the optional `Global Quote` object. -/
structure AlphaResp where
  note : Bool
  quote : Option AlphaRawQuote
deriving DecidableEq, Repr

/-- `AlphaVantageAPI.getStockData` (api-clients.js lines 86-117).  All
failures, including the fetch itself throwing, are rethrown wrapped with
the provider prefix. -/
def alphaGetStockData (symbol : String) (now : Int)
    (fetched : Except String AlphaResp) : Except String Quote :=
  match fetched with
  | .error msg => .error ("Alpha Vantage API error: " ++ msg)
  | .ok data =>
      if data.note then .error "Alpha Vantage API error: API rate limit exceeded"
      else
        match data.quote with
        | none => .error "Alpha Vantage API error: No data found for symbol"
        | some q =>
            .ok { symbol := symbol, price := q.price, «open» := q.«open»,
                  high := q.high, low := q.low, volume := some q.volume,
                  change := q.change, changePercent := Sum.inr q.changePercent,
                  timestamp := now, source := "alpha_vantage" }

/-- The `meta` object of `chart.result[0]` in a Yahoo Finance reply. -/
structure YahooMeta where
  symbol : String
  regularMarketPrice : ℚ
  regularMarketOpen : ℚ
  regularMarketDayHigh : ℚ
  regularMarketDayLow : ℚ
  regularMarketVolume : ℚ
  previousClose : ℚ
deriving DecidableEq, Repr

/-- Decoded Yahoo Finance reply body: `chart.result[0]` when present. -/
structure YahooResp where
  result : Option YahooMeta
deriving DecidableEq, Repr

/-- `YahooFinanceAPI.getStockData` (api-clients.js lines 168-197).  Note
that the produced quote's `symbol` is the vendor-reported `meta.symbol`,
not the requested one. -/
def yahooGetStockData (now : Int) (fetched : Except String YahooResp) :
    Except String Quote :=
  match fetched with
  | .error msg => .error ("Yahoo Finance API error: " ++ msg)
  | .ok data =>
      match data.result with
      | none => .error "Yahoo Finance API error: Invalid symbol or no data"
      | some meta =>
          .ok { symbol := meta.symbol, price := meta.regularMarketPrice,
                «open» := meta.regularMarketOpen, high := meta.regularMarketDayHigh,
                low := meta.regularMarketDayLow,
                volume := some meta.regularMarketVolume,
                change := meta.regularMarketPrice - meta.previousClose,
                changePercent := Sum.inl
                  ((meta.regularMarketPrice - meta.previousClose) / meta.previousClose * 100),
                timestamp := now, source := "yahoo_finance" }

/-- Decoded Finnhub reply body (`/quote` endpoint fields). -/
structure FinnhubResp where
  errorField : Option String
  c : ℚ
  o : ℚ
  h : ℚ
  l : ℚ
  d : ℚ
  dp : ℚ
deriving DecidableEq, Repr

/-- `FinnhubAPI.getStockData` (api-clients.js lines 208-233).  A truthy
`error` field in the body is thrown and rewrapped; the produced quote has
no volume field.  This adapter exists in the source but is never invoked
by `StockDataClient.getStockPrice`. -/
def finnhubGetStockData (symbol : String) (now : Int)
    (fetched : Except String FinnhubResp) : Except String Quote :=
  match fetched with
  | .error msg => .error ("Finnhub API error: " ++ msg)
  | .ok data =>
      if jsTruthy data.errorField then
        .error ("Finnhub API error: " ++ data.errorField.getD "")
      else
        .ok { symbol := symbol, price := data.c, «open» := data.o,
              high := data.h, low := data.l, volume := none,
              change := data.d, changePercent := Sum.inl data.dp,
              timestamp := now, source := "finnhub" }

/-- State of a `StockDataClient`: the quote cache and the per-key last
fetch times (`CACHE_DURATION` is 60000 ms). -/
structure StockState where
  cache : JsMap Quote
  lastFetchTime : JsMap Int
deriving DecidableEq, Repr

def CACHE_DURATION : Int := 60000

/-- The per-symbol network environment of one `getStockPrice` round: the
decoded reply (or thrown error) each provider's fetch would produce. -/
structure StockEnv where
  alpha : String → Except String AlphaResp
  yahoo : String → Except String YahooResp

/-- The fetch path of `getStockPrice` (cache miss or stale): try Alpha
Vantage, then Yahoo Finance; cache the first success; when both fail,
throw an error naming the symbol.  No third provider is consulted. -/
def getStockPriceFetch (st : StockState) (env : StockEnv) (now : Int)
    (symbol : String) : StockState × Except String Quote :=
  let cacheKey := "stock_" ++ symbol
  match alphaGetStockData symbol now (env.alpha symbol) with
  | .ok data =>
      ({ cache := jsSet st.cache cacheKey data,
         lastFetchTime := jsSet st.lastFetchTime cacheKey now }, .ok data)
  | .error _ =>
      match yahooGetStockData now (env.yahoo symbol) with
      | .ok data =>
          ({ cache := jsSet st.cache cacheKey data,
             lastFetchTime := jsSet st.lastFetchTime cacheKey now }, .ok data)
      | .error _ => (st, .error ("Unable to fetch data for " ++ symbol))

/-- `StockDataClient.getStockPrice` (api-clients.js lines 13-45): serve
from cache when the entry and its fetch time are present and younger than
`CACHE_DURATION`; otherwise run the two-provider fetch path. -/
def getStockPrice (st : StockState) (env : StockEnv) (now : Int)
    (symbol : String) : StockState × Except String Quote :=
  let cacheKey := "stock_" ++ symbol
  match jsGet st.cache cacheKey, jsGet st.lastFetchTime cacheKey with
  | some cachedData, some lastFetch =>
      if now - lastFetch < CACHE_DURATION then (st, .ok cachedData)
      else getStockPriceFetch st env now symbol
  | some _, none => getStockPriceFetch st env now symbol
  | none, _ => getStockPriceFetch st env now symbol

/-- One entry of the batch result object: a successful quote, or the error
marker object built in the `.catch` handler. -/
inductive BatchEntry where
  | quote (q : Quote)
  | errorMarker (symbol : String) (msg : String)
deriving DecidableEq, Repr

/-- `StockDataClient.getMultipleStockPrices` (api-clients.js lines 47-66).
All per-symbol promises are created synchronously, so every call's cache
check reads the initial state; each symbol's outcome therefore depends only
on the initial state and that symbol's own provider replies.  Successful
entries are keyed by the quote's own `symbol` field, failed ones by the
requested symbol captured in the `.catch` closure. -/
def getMultipleStockPrices (st : StockState) (env : StockEnv) (now : Int)
    (symbols : List String) : JsMap BatchEntry :=
  let results : List BatchEntry := symbols.map (fun s =>
    match (getStockPrice st env now s).2 with
    | .ok q => BatchEntry.quote q
    | .error msg => BatchEntry.errorMarker s msg)
  results.foldl (fun m r =>
    match r with
    | .quote q => jsSet m q.symbol r
    | .errorMarker s _ => jsSet m s r) []

/-! ### Historical data (`getStockHistory`, `AlphaVantageAPI.getHistoricalData`) -/

/-- One raw time-series entry's values, as the parsed numbers. -/
structure RawBar where
  «open» : ℚ
  high : ℚ
  low : ℚ
  close : ℚ
  volume : ℚ
deriving DecidableEq, Repr

/-- Normalized OHLCV bar produced by `getHistoricalData`. -/
structure Bar where
  date : String
  «open» : ℚ
  high : ℚ
  low : ℚ
  close : ℚ
  volume : ℚ
deriving DecidableEq, Repr

/-- Decoded Alpha Vantage historical reply: the `Note` marker and the
top-level fields holding date-keyed time series (modelled as a map from
field name to the ordered entry list `Object.entries` would produce). -/
structure AVHistResp where
  note : Bool
  series : JsMap (List (String × RawBar))
deriving DecidableEq, Repr

/-- The `functionMap` object in `getHistoricalData`. -/
def functionMap (timeframe : String) : Option String :=
  if timeframe = "1day" then some "TIME_SERIES_DAILY"
  else if timeframe = "1week" then some "TIME_SERIES_WEEKLY"
  else if timeframe = "1month" then some "TIME_SERIES_MONTHLY"
  else none

/-- The `timeKeyMap` object in `getHistoricalData`. -/
def timeKeyMap (fn : String) : Option String :=
  if fn = "TIME_SERIES_DAILY" then some "Time Series (Daily)"
  else if fn = "TIME_SERIES_WEEKLY" then some "Weekly Time Series"
  else if fn = "TIME_SERIES_MONTHLY" then some "Monthly Time Series"
  else none

/-- `AlphaVantageAPI.getHistoricalData` (api-clients.js lines 119-160).
When the timeframe is unrecognized or the expected time-series field is
absent, `Object.entries(undefined)` throws a TypeError which the catch
rewraps (the host's exact TypeError text is engine-specific and unused;
a fixed stand-in message is used here).  Otherwise the first 10 entries
are normalized. -/
def getHistoricalData (timeframe : String) (fetched : Except String AVHistResp) :
    Except String (List Bar) :=
  match fetched with
  | .error msg => .error ("Historical data error: " ++ msg)
  | .ok data =>
      if data.note then .error "Historical data error: API rate limit exceeded"
      else
        match ((functionMap timeframe).bind timeKeyMap).bind (jsGet data.series) with
        | none => .error "Historical data error: Object.entries called on undefined"
        | some entries =>
            .ok ((entries.take 10).map (fun p =>
              { date := p.1, «open» := p.2.«open», high := p.2.high,
                low := p.2.low, close := p.2.close, volume := p.2.volume }))

/-- `StockDataClient.getStockHistory` (api-clients.js lines 68-75): any
failure of the single-provider history fetch yields `none` (JS `null`)
rather than an error. -/
def getStockHistory (timeframe : String) (fetched : Except String AVHistResp) :
    Option (List Bar) :=
  match getHistoricalData timeframe fetched with
  | .ok l => some l
  | .error _ => none

/-! ### News client (`api-clients.js`)

`publishedAt` values are modelled as the integer milliseconds the host's
`new Date(...)` parsing yields; string date parsing itself is abstracted. -/

/-- Normalized news article (the shape built by the provider adapters). -/
structure Article where
  title : String
  description : String
  url : String
  urlToImage : Option String
  publishedAt : Int
  source : String
  content : String
deriving DecidableEq, Repr

/-- One element of `data.articles` in a NewsAPI reply (fields used by the
adapter; `sourceName` models `article.source?.name`). -/
structure RawNewsArticle where
  title : String
  description : String
  url : String
  urlToImage : Option String
  publishedAt : Int
  sourceName : Option String
  content : String
deriving DecidableEq, Repr

/-- The per-article mapping in `NewsAPIClient.getNews` (lines 422-430). -/
def normalizeNewsArticle (a : RawNewsArticle) : Article :=
  { title := a.title, description := a.description, url := a.url,
    urlToImage := a.urlToImage, publishedAt := a.publishedAt,
    source := if jsTruthy a.sourceName then a.sourceName.getD "" else "Unknown",
    content := a.content }

/-- ASCII lowering of one character (the behaviour of the host's
`toLowerCase` on the ASCII throttling messages this code inspects). -/
def lowerChar (c : Char) : Char :=
  if 65 <= c.toNat && c.toNat <= 90 then Char.ofNat (c.toNat + 32) else c

/-- Lowercasing of a whole message string. -/
def jsToLower (s : String) : String := String.mk (s.data.map lowerChar)

/-- Substring occurrence test on character lists. -/
def listContainsSub (pat : List Char) : List Char → Bool
  | [] => pat.isEmpty
  | c :: rest => pat.isPrefixOf (c :: rest) || listContainsSub pat rest

/-- `lower.includes(pat)` on strings. -/
def containsSub (s pat : String) : Bool :=
  listContainsSub pat.data s.data

/-- Mutable fields of a `NewsAPIClient` instance: the rate-limit cooldown
deadline `_rateLimitedUntil` and the warning-throttle stamp `_lastWarnAt`
(the latter only gates console output). -/
structure NewsApiState where
  rateLimitedUntil : Int
  lastWarnAt : Int
deriving DecidableEq, Repr

/-- Decoded NewsAPI reply body. -/
structure NewsApiBody where
  status : String
  message : Option String
  articles : List RawNewsArticle
deriving DecidableEq, Repr

/-- `NewsAPIClient.isRateLimited` (api-clients.js lines 440-442). -/
def isRateLimited (st : NewsApiState) (now : Int) : Bool :=
  decide (now < st.rateLimitedUntil)

/-- `NewsAPIClient.getNews` (api-clients.js lines 382-438).  Returns the
updated state, the article list, and whether the network layer (`fetch`)
was invoked.  Before the cooldown deadline the call short-circuits to an
empty list without touching the network.  A non-ok status whose message
matches the throttling heuristics sets the cooldown 6 hours ahead; every
other failure degrades to an empty list. -/
def newsApiGetNews (st : NewsApiState) (now : Int)
    (fetched : Except String NewsApiBody) : NewsApiState × List Article × Bool :=
  if now < st.rateLimitedUntil then (st, [], false)
  else
    match fetched with
    | .error _ =>
        let st1 := if 300000 < now - st.lastWarnAt then { st with lastWarnAt := now } else st
        (st1, [], true)
    | .ok data =>
        if data.status ≠ "ok" then
          let msg := data.message.getD ""
          let lower := jsToLower msg
          if containsSub lower "too many requests" || containsSub lower "rate" ||
              containsSub lower "limit" then
            let st1 := { st with rateLimitedUntil := now + 6 * 60 * 60 * 1000 }
            let st2 := if 300000 < now - st1.lastWarnAt then { st1 with lastWarnAt := now } else st1
            (st2, [], true)
          else
            let st1 := if 300000 < now - st.lastWarnAt then { st with lastWarnAt := now } else st
            (st1, [], true)
        else (st, data.articles.map normalizeNewsArticle, true)

/-- Stable insertion step of the in-place `sort((a, b) => new Date(b.publishedAt)
- new Date(a.publishedAt))`: `x` is placed before the first element whose
publish time does not exceed its own. -/
def insertByPublishedDesc (x : Article) : List Article → List Article
  | [] => [x]
  | y :: rest =>
      if y.publishedAt > x.publishedAt then y :: insertByPublishedDesc x rest
      else x :: y :: rest

/-- Stable sort of articles, most recent first (modern JS `Array.sort` is
stable). -/
def sortByPublishedDesc : List Article → List Article
  | [] => []
  | x :: rest => insertByPublishedDesc x (sortByPublishedDesc rest)

/-- The dedup loop of `searchForStockNews`: keep the first occurrence of
each exact title, tracking the `seenTitles` set. -/
def dedupeByTitle (seen : List String) : List Article → List Article
  | [] => []
  | a :: rest =>
      if a.title ∈ seen then dedupeByTitle seen rest
      else a :: dedupeByTitle (a.title :: seen) rest

/-- The five fixed query variants issued by `searchForStockNews`. -/
def stockNewsQueries (symbol : String) : List String :=
  [symbol, symbol ++ " stock", symbol ++ " price", symbol ++ " market",
   symbol ++ " trading"]

/-- `NewsDataClient.searchForStockNews` (api-clients.js lines 288-325).
`getNewsO` abstracts `this.getNews(query, ...)` for this round (the
orchestrator's `getNews` absorbs every provider failure into a list, so
each query yields a list and the surrounding try/catch is dead).  The
queries are issued sequentially; results are concatenated, sorted most
recent first, deduplicated by exact title keeping the first survivor, and
truncated to 20. -/
def searchForStockNews (getNewsO : String → List Article) (symbol : String) :
    List Article :=
  let allResults := ((stockNewsQueries symbol).map getNewsO).flatten
  (dedupeByTitle [] (sortByPublishedDesc allResults)).take 20

/-! ### Confidence scoring (`calculateConfidenceScore`, llm-processor.js 418-429)

JavaScript numbers are IEEE-754 binary64.  Every finite double is a
rational, and double arithmetic is exact rational arithmetic followed by
rounding to nearest (ties to even) at 53 significant bits.  `roundD` below
implements that rounding on `ℚ` (normal and subnormal magnitudes; values
reaching the infinite range do not occur here), so the score computation
is bit-faithful. -/

/-- Floor of the binary logarithm of a positive natural number, by greedy
division: strip chunks of `2 ^ 128` (18 rounds cover every magnitude below
`2 ^ 2432`, far beyond the binary64 range), then descending power-of-two
chunks, accumulating the stripped exponent. -/
def nlog2 (m : Nat) : Nat :=
  (([128, 128, 128, 128, 128, 128, 128, 128, 128, 128, 128, 128, 128, 128,
     128, 128, 128, 128, 64, 32, 16, 8, 4, 2, 1] : List Nat).foldl
    (fun (st : Nat × Nat) step =>
      if 2 ^ step ≤ st.1 then (st.1 / 2 ^ step, st.2 + step) else st)
    (m, 0)).2

/-- Round the fraction `a / b` (with `b > 0`) to the nearest natural
number, ties to even. -/
def rneNat (a b : Nat) : Nat :=
  let f := a / b
  let r := a % b
  if 2 * r < b then f
  else if b < 2 * r then f + 1
  else if f % 2 = 0 then f else f + 1

/-- Round the positive fraction `n / d` to the binary64 grid.  With
`a = ⌊log₂ n⌋` and `b = ⌊log₂ d⌋`, the binary exponent of `n / d` is
`e = a - b - cbit` (`cbit` corrects for the comparison of the stripped
significands).  The grid has `2 ^ (52 - e)` steps per unit for normal
magnitudes and `2 ^ 1074` below them (`min` of the two precisions, since
`52 - e > 1074` exactly when `e < -1022`); values at or beyond `2 ^ 1024`
(overflow to infinity) do not occur in this development.  `p = k - a`
and `s = a - k` are the nonnegative and negative precision cases. -/
def roundPosCore (n d : Nat) : ℚ :=
  let a := nlog2 n
  let b := nlog2 d
  let cbit : Nat := if d * 2 ^ a ≤ n * 2 ^ b then 0 else 1
  let k := b + 52 + cbit
  if a ≤ k then
    let p := min (k - a) 1074
    (rneNat (n * 2 ^ p) d : ℚ) / (2 ^ p : ℚ)
  else
    let s := a - k
    (rneNat n (d * 2 ^ s) : ℚ) * (2 ^ s : ℚ)

/-- Round a positive rational to the binary64 grid. -/
def roundPos (q : ℚ) : ℚ := roundPosCore q.num.toNat q.den

/-- Round a rational to the nearest binary64 value. -/
def roundD (q : ℚ) : ℚ :=
  if q = 0 then 0
  else if q < 0 then -roundPos (-q)
  else roundPos q

/-- Double addition: exact sum, then one rounding. -/
def dadd (a b : ℚ) : ℚ := roundD (a + b)

/-- The double denoted by a JS numeric literal with exact decimal value
`q`. -/
def dlit (q : ℚ) : ℚ := roundD q

/-- The `data` argument of `calculateConfidenceScore` (a quote-like object
whose fields may each be absent).  Field values are the rationals the
stored doubles represent; `timestamp` is `none` when the field is absent,
falsy, or unparseable as a date. -/
structure ConfData where
  price : Option ℚ
  volume : Option ℚ
  source : Option String
  timestamp : Option Int
deriving DecidableEq, Repr

/-- JS `x > c` where `x` may be `undefined` (absent compares false). -/
def jsGtNum : Option ℚ → ℚ → Bool
  | some p, c => decide (c < p)
  | none, _ => false

/-- `calculateConfidenceScore` (llm-processor.js lines 418-429), computed
in exact binary64 semantics: 0.1 for an absent data object; otherwise the
base 0.5 plus the four conditional bonuses, each addition rounded, then
`Math.min(score, 1)`. -/
def calculateConfidenceScore (now : Int) (data : Option ConfData) : ℚ :=
  match data with
  | none => dlit (1 / 10)
  | some d =>
      let score := dlit (1 / 2)
      let score := if jsGtNum d.price 0 then dadd score (dlit (1 / 5)) else score
      let score := if jsGtNum d.volume 1000 then dadd score (dlit (1 / 10)) else score
      let score := if jsTruthy d.source then dadd score (dlit (1 / 10)) else score
      let fresh : Bool :=
        match d.timestamp with
        | some t => decide (now - t < 300000)
        | none => false
      let score := if fresh then dadd score (dlit (1 / 10)) else score
      min score 1

/-! ### Evaluation lemmas for the binary64 model

`roundPosCore` duplicates its intermediate values when unfolded, so
concrete evaluations go through a staged lemma taking every intermediate
as an explicit hypothesis, each discharged by `norm_num` on small
literals. -/

theorem roundPosCore_eval (n d a b cbit k p m : Nat) (r : ℚ)
    (ha : nlog2 n = a) (hb : nlog2 d = b)
    (hc : (if d * 2 ^ a ≤ n * 2 ^ b then (0 : Nat) else 1) = cbit)
    (hk : b + 52 + cbit = k) (hak : a ≤ k) (hp : min (k - a) 1074 = p)
    (hm : rneNat (n * 2 ^ p) d = m) (hr : (m : ℚ) / ((2 ^ p : Nat) : ℚ) = r) :
    roundPosCore n d = r := by
  simp only [roundPosCore, ha, hb, hc, hk, hp, hm, if_pos hak]
  rw [← hr]
  norm_num

theorem roundD_eval (q : ℚ) (n d : Nat) (hpos : 0 < q) (h1 : q.num.toNat = n)
    (h2 : q.den = d) (r : ℚ) (hr : roundPosCore n d = r) : roundD q = r := by
  rw [roundD, if_neg hpos.ne', if_neg (by exact not_lt.mpr (le_of_lt hpos)),
    roundPos, h1, h2, hr]

theorem dadd_eval (x y s : ℚ) (n d : Nat) (hs : x + y = s) (hpos : 0 < s)
    (h1 : s.num.toNat = n) (h2 : s.den = d) (r : ℚ) (hr : roundPosCore n d = r) :
    dadd x y = r := by
  rw [dadd, hs]
  exact roundD_eval s n d hpos h1 h2 r hr

/-- The double 0.5 (exact). -/
theorem dlit_half : dlit (1 / 2) = 1 / 2 :=
  roundD_eval (1 / 2) 1 2 (by norm_num) (by norm_num) (by norm_num) _
    (roundPosCore_eval 1 2 0 1 0 53 53 4503599627370496 _
      (by norm_num [nlog2]) (by norm_num [nlog2]) (by norm_num) (by norm_num)
      (by norm_num) (by norm_num) (by norm_num [rneNat]) (by norm_num))

/-- The double 0.1. -/
theorem dlit_tenth : dlit (1 / 10) = 3602879701896397 / 36028797018963968 :=
  roundD_eval (1 / 10) 1 10 (by norm_num) (by norm_num) (by norm_num) _
    (roundPosCore_eval 1 10 0 3 1 56 56 7205759403792794 _
      (by norm_num [nlog2]) (by norm_num [nlog2]) (by norm_num) (by norm_num)
      (by norm_num) (by norm_num) (by norm_num [rneNat]) (by norm_num))

/-- The double 0.2. -/
theorem dlit_fifth : dlit (1 / 5) = 3602879701896397 / 18014398509481984 :=
  roundD_eval (1 / 5) 1 5 (by norm_num) (by norm_num) (by norm_num) _
    (roundPosCore_eval 1 5 0 2 1 55 55 7205759403792794 _
      (by norm_num [nlog2]) (by norm_num [nlog2]) (by norm_num) (by norm_num)
      (by norm_num) (by norm_num) (by norm_num [rneNat]) (by norm_num))

/-- In binary64, `0.5 + 0.2` rounds to the double 0.7 exactly. -/
theorem dadd_half_fifth :
    dadd (1 / 2) (3602879701896397 / 18014398509481984) =
      3152519739159347 / 4503599627370496 :=
  dadd_eval _ _ (12610078956637389 / 18014398509481984) 12610078956637389
    18014398509481984 (by norm_num) (by norm_num) (by norm_num; simp) (by norm_num) _
    (roundPosCore_eval 12610078956637389 18014398509481984 53 54 0 106 53
      6305039478318694 _
      (by norm_num [nlog2]) (by norm_num [nlog2]) (by norm_num) (by norm_num)
      (by norm_num) (by norm_num) (by norm_num [rneNat]) (by norm_num))

/-- In binary64, `0.7 + 0.1` rounds to 0.7999999999999999. -/
theorem dadd_07_01 :
    dadd (3152519739159347 / 4503599627370496)
      (3602879701896397 / 36028797018963968) =
      7205759403792793 / 9007199254740992 :=
  dadd_eval _ _ (28823037615171173 / 36028797018963968) 28823037615171173
    36028797018963968 (by norm_num) (by norm_num) (by norm_num; simp) (by norm_num) _
    (roundPosCore_eval 28823037615171173 36028797018963968 54 55 0 107 53
      7205759403792793 _
      (by norm_num [nlog2]) (by norm_num [nlog2]) (by norm_num) (by norm_num)
      (by norm_num) (by norm_num) (by norm_num [rneNat]) (by norm_num))

/-- In binary64, `0.7999999999999999 + 0.1` rounds to 0.8999999999999999. -/
theorem dadd_08_01 :
    dadd (7205759403792793 / 9007199254740992)
      (3602879701896397 / 36028797018963968) =
      2026619832316723 / 2251799813685248 :=
  dadd_eval _ _ (32425917317067569 / 36028797018963968) 32425917317067569
    36028797018963968 (by norm_num) (by norm_num) (by norm_num; simp) (by norm_num) _
    (roundPosCore_eval 32425917317067569 36028797018963968 54 55 0 107 53
      8106479329266892 _
      (by norm_num [nlog2]) (by norm_num [nlog2]) (by norm_num) (by norm_num)
      (by norm_num) (by norm_num) (by norm_num [rneNat]) (by norm_num))

/-- In binary64, `0.8999999999999999 + 0.1` rounds to 0.9999999999999999,
which is strictly below 1. -/
theorem dadd_09_01 :
    dadd (2026619832316723 / 2251799813685248)
      (3602879701896397 / 36028797018963968) =
      9007199254740991 / 9007199254740992 :=
  dadd_eval _ _ (36028797018963965 / 36028797018963968) 36028797018963965
    36028797018963968 (by norm_num) (by norm_num) (by norm_num; simp) (by norm_num) _
    (roundPosCore_eval 36028797018963965 36028797018963968 54 55 0 107 53
      9007199254740991 _
      (by norm_num [nlog2]) (by norm_num [nlog2]) (by norm_num) (by norm_num)
      (by norm_num) (by norm_num) (by norm_num [rneNat]) (by norm_num))

/-! ### Helper lemmas -/

theorem recordFailure_disabled (st : LLMState) :
    (recordFailure st).remoteDisabled = true := by
  simp [recordFailure]

theorem recordFailure_key (st : LLMState) : (recordFailure st).apiKey = none := by
  simp [recordFailure]

theorem makeLLMCall_disabled {α : Type} (pf : String → Option α) (st : LLMState)
    (now : Int) (o : FetchOutcome) (p : String) (t : PromptType)
    (hdis : st.remoteDisabled = true) :
    makeLLMCall st pf now o p t = (st, false, CallResult.fallback t p) := by
  cases o <;> simp [makeLLMCall, hdis]

/-! ### Claim C1 -/

/-- Claim C1: in the LLM gateway, any HTTP 400/401 response and, more
generally, the very first call failure of any kind (the failure counter
reaching 1) sets `remoteDisabled` permanently: (1) a remote attempt with a
failure outcome leaves the state disabled; (2) from any disabled state,
`makeLLMCall` — whatever the API key — routes to the deterministic
fallback, makes no remote attempt, and leaves the state unchanged, so the
disabled flag is observably true; (3) the disabled flag survives every
subsequent call sequence of the process. -/
theorem claim_C1 :
    (∀ (α : Type) (pf : String → Option α) (st : LLMState) (now : Int)
        (o : FetchOutcome) (p : String) (t : PromptType),
        o.isFailure = true → jsTruthy st.apiKey = true → st.remoteDisabled = false →
        (makeLLMCall st pf now o p t).1.remoteDisabled = true) ∧
    (∀ (α : Type) (pf : String → Option α) (st : LLMState) (now : Int)
        (o : FetchOutcome) (p : String) (t : PromptType),
        st.remoteDisabled = true →
        makeLLMCall st pf now o p t = (st, false, CallResult.fallback t p)) ∧
    (∀ (α : Type) (pf : String → Option α) (st : LLMState)
        (calls : List (Int × FetchOutcome × String × PromptType)),
        st.remoteDisabled = true → (runCalls pf st calls).remoteDisabled = true) := by
  refine ⟨?_, ?_, ?_⟩
  · intro α pf st now o p t hfail hkey hdis
    cases o with
    | netError => simp [makeLLMCall, hkey, hdis, recordFailure_disabled]
    | httpError s =>
        simp only [makeLLMCall, hkey, hdis]
        norm_num [recordFailure_disabled]
    | ok body => simp [FetchOutcome.isFailure] at hfail
  · intro α pf st now o p t hdis
    exact makeLLMCall_disabled pf st now o p t hdis
  · intro α pf st calls hdis
    induction calls generalizing st with
    | nil => exact hdis
    | cons c rest ih =>
        obtain ⟨now, o, p, t⟩ := c
        rw [runCalls, makeLLMCall_disabled pf st now o p t hdis]
        exact ih st hdis

/-- Witness for C1 at a concrete state: a gateway holding a valid key
suffers one network failure; afterwards the flag is set, and a further
call from a disabled state with a fresh key is a no-attempt fallback. -/
theorem claim_C1_witness :
    (FetchOutcome.netError.isFailure = true ∧
      jsTruthy (LLMState.mk (some "sk-key") "url" "gpt" 0 false).apiKey = true ∧
      (makeLLMCall (LLMState.mk (some "sk-key") "url" "gpt" 0 false)
        (fun _ => (none : Option Unit)) 0 FetchOutcome.netError "p"
        PromptType.taskUnderstanding).1.remoteDisabled = true) ∧
    makeLLMCall (LLMState.mk (some "sk-fresh") "url" "gpt" 1 true)
        (fun _ => (none : Option Unit)) 0 (FetchOutcome.ok (LLMBody.content "hi"))
        "p" PromptType.decisionMaking =
      (LLMState.mk (some "sk-fresh") "url" "gpt" 1 true, false,
        CallResult.fallback PromptType.decisionMaking "p") := by
  refine ⟨⟨rfl, by decide, ?_⟩, ?_⟩
  · exact claim_C1.1 Unit (fun _ => none) _ 0 FetchOutcome.netError "p"
      PromptType.taskUnderstanding rfl (by decide) rfl
  · exact claim_C1.2.1 Unit (fun _ => none) _ 0 (FetchOutcome.ok (LLMBody.content "hi"))
      "p" PromptType.decisionMaking rfl

/-! ### Claim C2 -/

/-- Claim C2 counterexample: a gateway disabled by a prior failure
(`remoteDisabled = true`, `failureCount = 1`) is given a fresh API key by
`updateConfig`; contrary to the claim, neither the disabled flag nor the
failure counter is reset, and a subsequent `makeLLMCall` with the new key
still routes to the fallback with no remote attempt. -/
theorem claim_C2_counterexample :
    (updateConfig (LLMState.mk none "url" "gpt" 1 true) (some "sk-new") none
        none).remoteDisabled = true ∧
    (updateConfig (LLMState.mk none "url" "gpt" 1 true) (some "sk-new") none
        none).failureCount = 1 ∧
    makeLLMCall (updateConfig (LLMState.mk none "url" "gpt" 1 true)
        (some "sk-new") none none) (fun _ => (none : Option Unit)) 0
        (FetchOutcome.ok (LLMBody.content "hi")) "p" PromptType.taskUnderstanding =
      (updateConfig (LLMState.mk none "url" "gpt" 1 true) (some "sk-new") none none,
        false, CallResult.fallback PromptType.taskUnderstanding "p") := by
  exact ⟨rfl, rfl, makeLLMCall_disabled _ _ _ _ _ _ rfl⟩

/-- Claim C2 amended: `updateConfig` replaces the API key (and, when
truthy, the base URL and model) but resets neither `remoteDisabled` nor
`failureCount`; consequently, once the circuit is disabled, a
`makeLLMCall` after `updateConfig` with a fresh key still routes to the
deterministic fallback and makes no remote attempt. -/
theorem claim_C2_amended :
    ∀ (st : LLMState) (key baseUrl model : Option String),
      (updateConfig st key baseUrl model).apiKey = key ∧
      (updateConfig st key baseUrl model).remoteDisabled = st.remoteDisabled ∧
      (updateConfig st key baseUrl model).failureCount = st.failureCount ∧
      (st.remoteDisabled = true →
        ∀ (α : Type) (pf : String → Option α) (now : Int) (o : FetchOutcome)
          (p : String) (t : PromptType),
          makeLLMCall (updateConfig st key baseUrl model) pf now o p t =
            (updateConfig st key baseUrl model, false, CallResult.fallback t p)) := by
  intro st key baseUrl model
  exact ⟨rfl, rfl, rfl, fun hdis α pf now o p t =>
    makeLLMCall_disabled pf _ now o p t (by simpa [updateConfig] using hdis)⟩

/-- Witness for the amended C2 at a concrete disabled state and fresh
key. -/
theorem claim_C2_amended_witness :
    (updateConfig (LLMState.mk none "url" "gpt" 1 true) (some "sk-new") none
        none).apiKey = some "sk-new" ∧
    (updateConfig (LLMState.mk none "url" "gpt" 1 true) (some "sk-new") none
        none).remoteDisabled = true ∧
    makeLLMCall (updateConfig (LLMState.mk none "url" "gpt" 1 true)
        (some "sk-new") none none) (fun _ => (none : Option Unit)) 7
        FetchOutcome.netError "q" PromptType.conditionAnalysis =
      (updateConfig (LLMState.mk none "url" "gpt" 1 true) (some "sk-new") none none,
        false, CallResult.fallback PromptType.conditionAnalysis "q") := by
  obtain ⟨h1, h2, _h3, h4⟩ := claim_C2_amended (LLMState.mk none "url" "gpt" 1 true)
    (some "sk-new") none none
  exact ⟨h1, h2, h4 rfl Unit (fun _ => none) 7 FetchOutcome.netError "q"
    PromptType.conditionAnalysis⟩

/-! ### Claim C6 -/

/-- Claim C6 counterexample: for a reply whose content is the non-JSON
text "hello" (the decoder rejects it), `parseLLMResponse` wraps it with
`parsed := true`, not `parsed := false` as the claim states. -/
theorem claim_C6_counterexample :
    parseLLMResponse (fun _ => (none : Option Unit)) 5 (LLMBody.content "hello") =
      ParseResult.textWrap "hello" true (some 5) ∧
    parseLLMResponse (fun _ => (none : Option Unit)) 5 (LLMBody.content "hello") ≠
      ParseResult.textWrap "hello" false (some 5) := by
  exact ⟨rfl, by decide⟩

/-- Claim C6 amended: `parseLLMResponse` first attempts strict JSON
decoding of the message content; when decoding fails it returns the raw
text wrapped with `parsed := true` and a timestamp rather than raising
(the `parsed := false` wrapper, with a fixed text and no timestamp, occurs
only when the reply shape itself is malformed), so a parsing failure is
never fatal to the caller. -/
theorem claim_C6_amended :
    ∀ (α : Type) (pf : String → Option α) (now : Int) (s : String),
      (pf s = none →
        parseLLMResponse pf now (LLMBody.content s) =
          ParseResult.textWrap s true (some now)) ∧
      (∀ v, pf s = some v →
        parseLLMResponse pf now (LLMBody.content s) = ParseResult.jsonValue v) ∧
      parseLLMResponse pf now LLMBody.malformed =
        ParseResult.textWrap "Unable to process LLM response" false none := by
  intro α pf now s
  refine ⟨fun h => ?_, fun v h => ?_, rfl⟩
  · simp [parseLLMResponse, h]
  · simp [parseLLMResponse, h]

/-- Witness for the amended C6: a rejecting decoder on "hello", an
accepting decoder on "42", and the malformed case, all at concrete
inputs. -/
theorem claim_C6_amended_witness :
    ((fun _ => (none : Option Unit)) "hello" = none ∧
      parseLLMResponse (fun _ => (none : Option Unit)) 5 (LLMBody.content "hello") =
        ParseResult.textWrap "hello" true (some 5)) ∧
    ((fun _ => (some 42 : Option Nat)) "42" = some 42 ∧
      parseLLMResponse (fun _ => (some 42 : Option Nat)) 5 (LLMBody.content "42") =
        ParseResult.jsonValue 42) := by
  refine ⟨⟨rfl, ?_⟩, ⟨rfl, ?_⟩⟩
  · exact (claim_C6_amended Unit (fun _ => none) 5 "hello").1 rfl
  · exact (claim_C6_amended Nat (fun _ => some 42) 5 "42").2.1 42 rfl

/-! ### Claim C9 -/

/-- Claim C9: for the primary news provider, (1) every call before the
cooldown deadline returns an empty result without invoking the network and
leaves the state untouched; (2) a non-ok reply whose message matches the
throttling heuristics sets the cooldown exactly 6 hours past the current
time and yields an empty result; (3) any call at or after the deadline
invokes the network layer; (4) therefore, after a throttling reply, every
call strictly within the next 6 hours short-circuits to empty with no
network invocation. -/
theorem claim_C9 :
    (∀ (st : NewsApiState) (now : Int) (f : Except String NewsApiBody),
      now < st.rateLimitedUntil → newsApiGetNews st now f = (st, [], false)) ∧
    (∀ (st : NewsApiState) (now : Int) (body : NewsApiBody),
      ¬ now < st.rateLimitedUntil → body.status ≠ "ok" →
      (containsSub (jsToLower (body.message.getD "")) "too many requests" ||
        containsSub (jsToLower (body.message.getD "")) "rate" ||
        containsSub (jsToLower (body.message.getD "")) "limit") = true →
      (newsApiGetNews st now (.ok body)).1.rateLimitedUntil =
          now + 6 * 60 * 60 * 1000 ∧
        (newsApiGetNews st now (.ok body)).2.1 = [] ∧
        (newsApiGetNews st now (.ok body)).2.2 = true) ∧
    (∀ (st : NewsApiState) (now : Int) (f : Except String NewsApiBody),
      ¬ now < st.rateLimitedUntil → (newsApiGetNews st now f).2.2 = true) ∧
    (∀ (st : NewsApiState) (now : Int) (body : NewsApiBody) (now2 : Int)
        (f2 : Except String NewsApiBody),
      ¬ now < st.rateLimitedUntil → body.status ≠ "ok" →
      (containsSub (jsToLower (body.message.getD "")) "too many requests" ||
        containsSub (jsToLower (body.message.getD "")) "rate" ||
        containsSub (jsToLower (body.message.getD "")) "limit") = true →
      now2 < now + 6 * 60 * 60 * 1000 →
      newsApiGetNews (newsApiGetNews st now (.ok body)).1 now2 f2 =
        ((newsApiGetNews st now (.ok body)).1, [], false)) := by
  have hnet : ∀ (st : NewsApiState) (now : Int) (f : Except String NewsApiBody),
      ¬ now < st.rateLimitedUntil → (newsApiGetNews st now f).2.2 = true := by
    intro st now f h
    cases f with
    | error e => simp [newsApiGetNews, h]
    | ok body =>
        simp only [newsApiGetNews, if_neg h]
        split_ifs <;> simp
  have hset : ∀ (st : NewsApiState) (now : Int) (body : NewsApiBody),
      ¬ now < st.rateLimitedUntil → body.status ≠ "ok" →
      (containsSub (jsToLower (body.message.getD "")) "too many requests" ||
        containsSub (jsToLower (body.message.getD "")) "rate" ||
        containsSub (jsToLower (body.message.getD "")) "limit") = true →
      (newsApiGetNews st now (.ok body)).1.rateLimitedUntil =
          now + 6 * 60 * 60 * 1000 ∧
        (newsApiGetNews st now (.ok body)).2.1 = [] ∧
        (newsApiGetNews st now (.ok body)).2.2 = true := by
    intro st now body h1 h2 h3
    simp only [newsApiGetNews, if_neg h1, if_pos h2, h3, if_true]
    split_ifs <;> simp
  have hshort : ∀ (st : NewsApiState) (now : Int) (f : Except String NewsApiBody),
      now < st.rateLimitedUntil → newsApiGetNews st now f = (st, [], false) := by
    intro st now f h
    simp [newsApiGetNews, h]
  refine ⟨hshort, hset, hnet, ?_⟩
  intro st now body now2 f2 h1 h2 h3 hlt
  exact hshort _ now2 f2 (by rw [(hset st now body h1 h2 h3).1]; exact hlt)

/-- Witness for C9: a concrete provider state and a concrete throttling
reply ("Too Many Requests"), followed by a call one hour later (inside the
cooldown) and the pre-deadline short-circuit at another concrete state. -/
theorem claim_C9_witness :
    newsApiGetNews (NewsApiState.mk 100 0) 50 (.error "boom") =
      (NewsApiState.mk 100 0, [], false) ∧
    (newsApiGetNews (NewsApiState.mk 0 0) 1000
        (.ok (NewsApiBody.mk "error" (some "Too Many Requests") []))).1.rateLimitedUntil =
      1000 + 6 * 60 * 60 * 1000 ∧
    newsApiGetNews
        (newsApiGetNews (NewsApiState.mk 0 0) 1000
          (.ok (NewsApiBody.mk "error" (some "Too Many Requests") []))).1
        (1000 + 60 * 60 * 1000) (.ok (NewsApiBody.mk "ok" none [])) =
      ((newsApiGetNews (NewsApiState.mk 0 0) 1000
          (.ok (NewsApiBody.mk "error" (some "Too Many Requests") []))).1, [], false) := by
  refine ⟨claim_C9.1 _ 50 _ (by decide), ?_, ?_⟩
  · exact (claim_C9.2.1 (NewsApiState.mk 0 0) 1000
      (NewsApiBody.mk "error" (some "Too Many Requests") []) (by decide) (by decide)
      (by decide)).1
  · exact claim_C9.2.2.2 (NewsApiState.mk 0 0) 1000
      (NewsApiBody.mk "error" (some "Too Many Requests") []) (1000 + 60 * 60 * 1000)
      (.ok (NewsApiBody.mk "ok" none [])) (by decide) (by decide) (by decide) (by decide)

/-! ### Claim C10 -/

/-- Claim C10: `getStockHistory` returns either `none` (JS `null`) or a
sequence of at most 10 OHLCV bars; on success the provider's time series
is unconditionally truncated to its first 10 entries even when more are
returned; an unrecognized timeframe, and any thrown fetch error, yield
`none` rather than an error. -/
theorem claim_C10 :
    (∀ (tf : String) (f : Except String AVHistResp) (l : List Bar),
      getStockHistory tf f = some l → l.length ≤ 10) ∧
    (∀ (tf fn key : String) (resp : AVHistResp)
        (entries : List (String × RawBar)),
      functionMap tf = some fn → timeKeyMap fn = some key → resp.note = false →
      jsGet resp.series key = some entries →
      getStockHistory tf (.ok resp) =
        some ((entries.take 10).map (fun p =>
          { date := p.1, «open» := p.2.«open», high := p.2.high, low := p.2.low,
            close := p.2.close, volume := p.2.volume }))) ∧
    (∀ (tf : String) (f : Except String AVHistResp),
      functionMap tf = none → getStockHistory tf f = none) ∧
    (∀ (tf msg : String), getStockHistory tf (.error msg) = none) := by
  have htrunc : ∀ (tf fn key : String) (resp : AVHistResp)
      (entries : List (String × RawBar)),
      functionMap tf = some fn → timeKeyMap fn = some key → resp.note = false →
      jsGet resp.series key = some entries →
      getStockHistory tf (.ok resp) =
        some ((entries.take 10).map (fun p =>
          { date := p.1, «open» := p.2.«open», high := p.2.high, low := p.2.low,
            close := p.2.close, volume := p.2.volume })) := by
    intro tf fn key resp entries h1 h2 h3 h4
    simp [getStockHistory, getHistoricalData, h1, h2, h3, h4]
  refine ⟨?_, htrunc, ?_, ?_⟩
  · intro tf f l hl
    cases f with
    | error msg => simp [getStockHistory, getHistoricalData] at hl
    | ok resp =>
        by_cases hn : resp.note
        · simp [getStockHistory, getHistoricalData, hn] at hl
        · cases hk : ((functionMap tf).bind timeKeyMap).bind (jsGet resp.series) with
          | none => simp [getStockHistory, getHistoricalData, hn, hk] at hl
          | some entries =>
              have : l = (entries.take 10).map (fun p =>
                  { date := p.1, «open» := p.2.«open», high := p.2.high,
                    low := p.2.low, close := p.2.close,
                    volume := p.2.volume : Bar }) := by
                simpa [getStockHistory, getHistoricalData, hn, hk] using hl.symm
              rw [this, List.length_map, List.length_take]
              exact min_le_left _ _
  · intro tf f h
    cases f with
    | error msg => simp [getStockHistory, getHistoricalData]
    | ok resp =>
        by_cases hn : resp.note <;>
          simp [getStockHistory, getHistoricalData, h, hn]
  · intro tf msg
    simp [getStockHistory, getHistoricalData]

/-- Witness for C10: a concrete daily series of 12 entries is truncated
to its first 10; the unrecognized timeframe "1year" yields `none`; a
thrown fetch error yields `none`. -/
theorem claim_C10_witness :
    getStockHistory "1day"
        (.ok (AVHistResp.mk false
          [("Time Series (Daily)",
            (List.range 12).map (fun i =>
              (toString i, RawBar.mk 1 2 0 1 100)))])) =
      some (((List.range 12).map (fun i =>
          (toString i, RawBar.mk 1 2 0 1 100))).take 10 |>.map (fun p =>
        { date := p.1, «open» := p.2.«open», high := p.2.high, low := p.2.low,
          close := p.2.close, volume := p.2.volume })) ∧
    ((((List.range 12).map (fun i => (toString i, RawBar.mk 1 2 0 1 100))).take 10).length
        = 10) ∧
    getStockHistory "1year" (.ok (AVHistResp.mk false [])) = none ∧
    getStockHistory "1day" (.error "network down") = none := by
  refine ⟨?_, by decide, ?_, ?_⟩
  · exact claim_C10.2.1 "1day" "TIME_SERIES_DAILY" "Time Series (Daily)" _ _
      (by decide) (by decide) rfl (by decide)
  · exact claim_C10.2.2.1 "1year" _ (by decide)
  · exact claim_C10.2.2.2 "1day" "network down"

/-! ### JsMap lemmas -/

theorem jsSet_length_le {α : Type} (m : JsMap α) (k : String) (v : α) :
    (jsSet m k v).length ≤ m.length + 1 := by
  induction m with
  | nil => simp [jsSet]
  | cons x rest ih =>
      obtain ⟨k0, v0⟩ := x
      by_cases h : k0 = k
      · simp [jsSet, h]
      · simpa [jsSet, h] using Nat.succ_le_succ ih

theorem jsSet_length_new {α : Type} (m : JsMap α) (k : String) (v : α)
    (h : jsHas m k = false) : (jsSet m k v).length = m.length + 1 := by
  induction m with
  | nil => simp [jsSet]
  | cons x rest ih =>
      obtain ⟨k0, v0⟩ := x
      by_cases hk : k0 = k
      · simp [jsHas, jsGet, hk] at h
      · have hrest : jsHas rest k = false := by simpa [jsHas, jsGet, hk] using h
        simp [jsSet, hk, ih hrest]

theorem jsGet_jsSet_self {α : Type} (m : JsMap α) (k : String) (v : α) :
    jsGet (jsSet m k v) k = some v := by
  induction m with
  | nil => simp [jsSet, jsGet]
  | cons x rest ih =>
      obtain ⟨k0, v0⟩ := x
      by_cases h : k0 = k
      · simp [jsSet, jsGet, h]
      · simp [jsSet, jsGet, h, ih]

theorem jsGet_jsSet_other {α : Type} (m : JsMap α) (k k2 : String) (v : α)
    (h : k2 ≠ k) : jsGet (jsSet m k v) k2 = jsGet m k2 := by
  induction m with
  | nil => simp [jsSet, jsGet, Ne.symm h]
  | cons x rest ih =>
      obtain ⟨k0, v0⟩ := x
      by_cases hk : k0 = k
      · subst hk
        simp [jsSet, jsGet, Ne.symm h]
      · simp [jsSet, jsGet, hk, ih]

/-! ### Claim C5 -/

/-- A sequence of `storeInCache` puts, each with its own clock, key and
value. -/
def runStores {α : Type} : JsMap (CachedEntry α) → List (Int × String × α) →
    JsMap (CachedEntry α)
  | c, [] => c
  | c, (now, k, v) :: rest => runStores (storeInCache now c k v) rest

/-- The per-symbol provider environment used in the C5 counterexample:
Alpha Vantage always answers with a fixed valid quote. -/
def envAlwaysOk : StockEnv where
  alpha := fun _ => .ok (AlphaResp.mk false (some (AlphaRawQuote.mk 1 1 1 1 1 1 "1%")))
  yahoo := fun _ => .error "unused"

/-- 101 pairwise distinct symbols. -/
def manySyms : List String := (List.range 101).map (fun i => String.mk (List.replicate i 'a'))

set_option maxRecDepth 40000 in
/-- Claim C5 counterexample: the stock-data cache (one of the three call
sites the claim quantifies over) performs no eviction at all — after
fetching 101 distinct symbols its live entry count is 101, exceeding
`maxSize` (the only configured maximum in the system, the LLM cache's
100). -/
theorem claim_C5_counterexample :
    (manySyms.foldl (fun st s => (getStockPrice st envAlwaysOk 0 s).1)
        (StockState.mk [] [])).cache.length = 101 ∧
      maxCacheSize < 101 := by
  constructor
  · decide
  · decide

/-- Claim C5 amended: only the LLM prompt cache enforces a size bound:
(1) one `storeInCache` put preserves `count ≤ maxCacheSize`; (2) every
sequence of puts from the empty cache keeps the live entry count at most
`maxCacheSize`; (3) a put at capacity evicts exactly the first —
earliest-inserted still-present — entry of the insertion-ordered map; but
(4) the stock-data client's cache has no bound at all: every fetch of an
uncached symbol grows it by one entry, without eviction. -/
theorem claim_C5_amended :
    (∀ (α : Type) (now : Int) (c : JsMap (CachedEntry α)) (k : String) (v : α),
      c.length ≤ maxCacheSize → (storeInCache now c k v).length ≤ maxCacheSize) ∧
    (∀ (α : Type) (ops : List (Int × String × α)),
      (runStores ([] : JsMap (CachedEntry α)) ops).length ≤ maxCacheSize) ∧
    (∀ (α : Type) (now : Int) (e : String × CachedEntry α)
        (rest : JsMap (CachedEntry α)) (k : String) (v : α),
      maxCacheSize ≤ (e :: rest).length →
      storeInCache now (e :: rest) k v = jsSet rest k (CachedEntry.mk v now)) ∧
    (∀ (st : StockState) (env : StockEnv) (now : Int) (s : String) (q : Quote),
      jsHas st.cache ("stock_" ++ s) = false →
      alphaGetStockData s now (env.alpha s) = .ok q →
      (getStockPrice st env now s).1.cache.length = st.cache.length + 1) := by
  have hone : ∀ (α : Type) (now : Int) (c : JsMap (CachedEntry α)) (k : String)
      (v : α), c.length ≤ maxCacheSize →
      (storeInCache now c k v).length ≤ maxCacheSize := by
    intro α now c k v h
    by_cases hbig : maxCacheSize ≤ c.length
    · cases c with
      | nil => simp [storeInCache, maxCacheSize, jsSet]
      | cons e rest =>
          simp only [storeInCache, if_pos hbig]
          calc (jsSet rest k (CachedEntry.mk v now)).length
              ≤ rest.length + 1 := jsSet_length_le rest k _
            _ = (e :: rest).length := by simp
            _ ≤ maxCacheSize := h
    · simp only [storeInCache, if_neg hbig]
      exact le_trans (jsSet_length_le c k _) (Nat.lt_of_not_le hbig)
  refine ⟨hone, ?_, ?_, ?_⟩
  · intro α ops
    suffices haux : ∀ (c : JsMap (CachedEntry α)), c.length ≤ maxCacheSize →
        (runStores c ops).length ≤ maxCacheSize by
      exact haux [] (by simp [maxCacheSize])
    induction ops with
    | nil => intro c h; exact h
    | cons op rest ih =>
        intro c h
        obtain ⟨now, k, v⟩ := op
        exact ih _ (hone α now c k v h)
  · intro α now e rest k v h
    simp only [storeInCache, if_pos h]
  · intro st env now s q hmiss halpha
    cases hg : jsGet st.cache ("stock_" ++ s) with
    | some v => simp [jsHas, hg] at hmiss
    | none =>
        simp only [getStockPrice, getStockPriceFetch, hg, halpha]
        exact jsSet_length_new st.cache _ _ hmiss

/-- Witness for the amended C5: a put on a concrete 100-entry cache stays
within the bound and evicts exactly the earliest-inserted entry; a fetch
of the uncached symbol "X" from an empty stock cache grows it to one
entry. -/
theorem claim_C5_amended_witness :
    (storeInCache 5 ((List.range 100).map (fun i =>
        (String.mk (List.replicate i 'b'), CachedEntry.mk (0 : Int) 0))) "k" 7).length ≤
      maxCacheSize ∧
    storeInCache 5 ((List.range 100).map (fun i =>
        (String.mk (List.replicate i 'b'), CachedEntry.mk (0 : Int) 0))) "k" 7 =
      jsSet (((List.range 100).map (fun i =>
        (String.mk (List.replicate i 'b'), CachedEntry.mk (0 : Int) 0))).drop 1) "k"
        (CachedEntry.mk 7 5) ∧
    (getStockPrice (StockState.mk [] []) envAlwaysOk 0 "X").1.cache.length = 0 + 1 := by
  refine ⟨?_, ?_, ?_⟩
  · exact claim_C5_amended.1 Int 5 _ "k" 7 (by decide)
  · have h := claim_C5_amended.2.2.1 Int 5 ("", CachedEntry.mk 0 0)
      ((((List.range 100)).map (fun i =>
        (String.mk (List.replicate i 'b'), CachedEntry.mk (0 : Int) 0))).drop 1) "k" 7
    exact claim_C5_amended.2.2.1 Int 5 _ _ "k" 7 (by decide)
  · exact claim_C5_amended.2.2.2 (StockState.mk [] []) envAlwaysOk 0 "X"
      (Quote.mk "X" 1 1 1 1 (some 1) 1 (Sum.inr "1%") 0 "alpha_vantage")
      (by decide) rfl

/-! ### Claim C3 -/

/-- A network environment in which both consulted quote providers fail. -/
def envBothFail : StockEnv where
  alpha := fun _ => .error "network unreachable"
  yahoo := fun _ => .error "network unreachable"

/-- Claim C3 counterexample: with both consulted providers failing,
`getStockPrice` raises the error naming the symbol even though the third
provider's adapter (`FinnhubAPI.getStockData`) would have produced a valid
quote from its reply — the chain consults only two providers, never the
tertiary one. -/
theorem claim_C3_counterexample :
    (getStockPrice (StockState.mk [] []) envBothFail 0 "AAPL").2 =
      .error "Unable to fetch data for AAPL" ∧
    finnhubGetStockData "AAPL" 0 (.ok (FinnhubResp.mk none 1 2 3 4 5 6)) =
      .ok (Quote.mk "AAPL" 1 2 3 4 none 5 (Sum.inl 6) 0 "finnhub") := by
  exact ⟨rfl, rfl⟩

/-- Claim C3 amended: for every symbol whose cache entry is absent or at
least 60 seconds old, `getStockPrice` walks a fallback chain over the two
consulted quote providers — Alpha Vantage, then Yahoo Finance — in order,
returning the first provider's successful normalized Quote; the Finnhub
adapter exists in the source but is never consulted; when both consulted
providers fail it raises an error naming the symbol. -/
theorem claim_C3_amended :
    ∀ (st : StockState) (env : StockEnv) (now : Int) (symbol : String),
      (jsGet st.cache ("stock_" ++ symbol) = none ∨
        jsGet st.lastFetchTime ("stock_" ++ symbol) = none ∨
        (∀ t, jsGet st.lastFetchTime ("stock_" ++ symbol) = some t →
          CACHE_DURATION ≤ now - t)) →
      ((∀ q, alphaGetStockData symbol now (env.alpha symbol) = .ok q →
          (getStockPrice st env now symbol).2 = .ok q) ∧
        (∀ e q, alphaGetStockData symbol now (env.alpha symbol) = .error e →
          yahooGetStockData now (env.yahoo symbol) = .ok q →
          (getStockPrice st env now symbol).2 = .ok q) ∧
        (∀ e e2, alphaGetStockData symbol now (env.alpha symbol) = .error e →
          yahooGetStockData now (env.yahoo symbol) = .error e2 →
          (getStockPrice st env now symbol).2 =
            .error ("Unable to fetch data for " ++ symbol))) := by
  intro st env now symbol hstale
  have hfetch : getStockPrice st env now symbol =
      getStockPriceFetch st env now symbol := by
    cases hc : jsGet st.cache ("stock_" ++ symbol) with
    | none => simp [getStockPrice, hc]
    | some c0 =>
        cases hl : jsGet st.lastFetchTime ("stock_" ++ symbol) with
        | none => simp [getStockPrice, hc, hl]
        | some t =>
            rcases hstale with h | h | h
            · rw [hc] at h; cases h
            · rw [hl] at h; cases h
            · have hge : ¬ now - t < CACHE_DURATION := not_lt.mpr (h t hl)
              simp [getStockPrice, hc, hl, hge]
  refine ⟨fun q hq => ?_, fun e q he hq => ?_, fun e e2 he he2 => ?_⟩
  · rw [hfetch]; simp [getStockPriceFetch, hq]
  · rw [hfetch]; simp [getStockPriceFetch, he, hq]
  · rw [hfetch]; simp [getStockPriceFetch, he, he2]

/-- A network environment in which Alpha Vantage fails and Yahoo succeeds
(echoing the uppercase vendor symbol). -/
def envYahooAlias : StockEnv where
  alpha := fun _ => .error "downA"
  yahoo := fun _ => .ok (YahooResp.mk (some (YahooMeta.mk "AAPL" 10 9 11 8 1000 1)))

/-- Witness for the amended C3: from an empty cache, the Alpha Vantage
success is returned as-is; when Alpha Vantage fails, Yahoo's normalized
quote is returned; when both fail, the error names the symbol. -/
theorem claim_C3_amended_witness :
    (getStockPrice (StockState.mk [] []) envAlwaysOk 0 "MSFT").2 =
      .ok (Quote.mk "MSFT" 1 1 1 1 (some 1) 1 (Sum.inr "1%") 0 "alpha_vantage") ∧
    (getStockPrice (StockState.mk [] []) envYahooAlias 0 "MSFT").2 =
      .ok (Quote.mk "AAPL" 10 9 11 8 (some 1000) (10 - 1) (Sum.inl ((10 - 1) / 1 * 100))
        0 "yahoo_finance") ∧
    (getStockPrice (StockState.mk [] []) envBothFail 0 "MSFT").2 =
      .error "Unable to fetch data for MSFT" := by
  refine ⟨?_, ?_, ?_⟩
  · exact (claim_C3_amended (StockState.mk [] []) envAlwaysOk 0 "MSFT"
      (Or.inl rfl)).1 _ rfl
  · exact (claim_C3_amended (StockState.mk [] []) envYahooAlias 0 "MSFT"
      (Or.inl rfl)).2.1 "Alpha Vantage API error: downA" _ rfl rfl
  · exact (claim_C3_amended (StockState.mk [] []) envBothFail 0 "MSFT"
      (Or.inl rfl)).2.2 "Alpha Vantage API error: network unreachable"
      "Yahoo Finance API error: network unreachable" rfl rfl

/-! ### Claim C4 -/

/-- The key under which the batch loop files a result object
(`result.symbol` in the source): the quote's own symbol for a success, the
requested symbol captured by the catch closure for a failure. -/
def BatchEntry.keyOf : BatchEntry → String
  | .quote q => q.symbol
  | .errorMarker s _ => s

theorem batch_step_eq (m : JsMap BatchEntry) (r : BatchEntry) :
    (match r with
      | .quote q => jsSet m q.symbol r
      | .errorMarker s _ => jsSet m s r) = jsSet m r.keyOf r := by
  cases r <;> rfl

theorem jsGet_batch_fold_of_absent (L : List BatchEntry) (m0 : JsMap BatchEntry)
    (k : String) (hk : ∀ r ∈ L, r.keyOf ≠ k) :
    jsGet (L.foldl (fun m r =>
      (match r with
        | .quote q => jsSet m q.symbol r
        | .errorMarker s _ => jsSet m s r)) m0) k = jsGet m0 k := by
  induction L generalizing m0 with
  | nil => rfl
  | cons r rest ih =>
      rw [List.foldl_cons, batch_step_eq,
        ih _ (fun r2 h2 => hk r2 (List.mem_cons_of_mem r h2)),
        jsGet_jsSet_other _ _ _ _ (Ne.symm (hk r (List.mem_cons_self r rest)))]

theorem jsGet_batch_fold_of_present (L : List BatchEntry) (m0 : JsMap BatchEntry)
    (k : String) (v : BatchEntry) (hsome : ∃ r ∈ L, r.keyOf = k)
    (huniq : ∀ r ∈ L, r.keyOf = k → r = v) :
    jsGet (L.foldl (fun m r =>
      (match r with
        | .quote q => jsSet m q.symbol r
        | .errorMarker s _ => jsSet m s r)) m0) k = some v := by
  induction L generalizing m0 with
  | nil => obtain ⟨r, hr, _⟩ := hsome; cases hr
  | cons r rest ih =>
      rw [List.foldl_cons, batch_step_eq]
      by_cases hrest : ∃ r2 ∈ rest, BatchEntry.keyOf r2 = k
      · exact ih _ hrest (fun r2 h2 hk2 => huniq r2 (List.mem_cons_of_mem r h2) hk2)
      · have hrk : r.keyOf = k := by
          obtain ⟨r2, hr2, hk2⟩ := hsome
          rcases List.mem_cons.mp hr2 with h | h
          · rw [← h]; exact hk2
          · exact absurd ⟨r2, h, hk2⟩ hrest
        have hrv : r = v := huniq r (List.mem_cons_self r rest) hrk
        rw [jsGet_batch_fold_of_absent rest _ k
          (fun r2 h2 hk2 => hrest ⟨r2, h2, hk2⟩), hrk, hrv, jsGet_jsSet_self]

/-- Claim C4 counterexample: requesting the single symbol "aapl" in an
environment where Alpha Vantage fails and Yahoo succeeds with the
vendor-reported symbol "AAPL", the batch result is keyed by the quote's
own symbol: the requested key "aapl" is absent from the result map, so
the key set is not the requested symbols. -/
theorem claim_C4_counterexample :
    jsGet (getMultipleStockPrices (StockState.mk [] []) envYahooAlias 0 ["aapl"])
        "aapl" = none ∧
    jsGet (getMultipleStockPrices (StockState.mk [] []) envYahooAlias 0 ["aapl"])
        "AAPL" =
      some (BatchEntry.quote (Quote.mk "AAPL" 10 9 11 8 (some 1000) (10 - 1)
        (Sum.inl ((10 - 1) / 1 * 100)) 0 "yahoo_finance")) := by
  exact ⟨rfl, rfl⟩

/-- Claim C4 amended: `getMultipleStockPrices` never fails as a whole, and
each requested symbol's entry depends only on that symbol's own outcome —
a success is stored as the quote, a failure as an error marker naming the
symbol, so one symbol's failure never removes another's entry.  The key
set is exactly the requested symbols provided every successful quote
carries the requested symbol in its `symbol` field (Alpha Vantage always
echoes it; Yahoo reports the vendor symbol, which may differ). -/
theorem claim_C4_amended :
    ∀ (st : StockState) (env : StockEnv) (now : Int) (symbols : List String),
      (∀ s ∈ symbols, ∀ q, (getStockPrice st env now s).2 = .ok q →
        q.symbol = s) →
      (∀ s ∈ symbols,
        jsGet (getMultipleStockPrices st env now symbols) s =
          some (match (getStockPrice st env now s).2 with
            | .ok q => BatchEntry.quote q
            | .error msg => BatchEntry.errorMarker s msg)) ∧
      (∀ s, s ∉ symbols →
        jsGet (getMultipleStockPrices st env now symbols) s = none) := by
  intro st env now symbols hecho
  have hkey : ∀ s ∈ symbols,
      (match (getStockPrice st env now s).2 with
        | .ok q => BatchEntry.quote q
        | .error msg => BatchEntry.errorMarker s msg).keyOf = s := by
    intro s hs
    cases hres : (getStockPrice st env now s).2 with
    | ok q => simpa [BatchEntry.keyOf] using hecho s hs q hres
    | error msg => simp [BatchEntry.keyOf]
  constructor
  · intro s hs
    refine jsGet_batch_fold_of_present _ _ _ _ ⟨_, List.mem_map_of_mem _ hs, hkey s hs⟩ ?_
    intro r hr hrk
    obtain ⟨s2, hs2, hrs2⟩ := List.mem_map.mp hr
    have hs2k : s2 = s := by rw [← hrk, ← hrs2]; exact (hkey s2 hs2).symm
    rw [← hrs2, hs2k]
  · intro s hs
    have : ∀ r ∈ symbols.map (fun s2 =>
        (match (getStockPrice st env now s2).2 with
          | .ok q => BatchEntry.quote q
          | .error msg => BatchEntry.errorMarker s2 msg)), r.keyOf ≠ s := by
      intro r hr
      obtain ⟨s2, hs2, hrs2⟩ := List.mem_map.mp hr
      rw [← hrs2, hkey s2 hs2]
      exact fun he => hs (he ▸ hs2)
    rw [getMultipleStockPrices, jsGet_batch_fold_of_absent _ _ _ this]
    rfl

/-- A network environment in which Alpha Vantage succeeds (echoing the
requested symbol) only for "A" and every other fetch fails. -/
def envMixed : StockEnv where
  alpha := fun s =>
    if s = "A" then .ok (AlphaResp.mk false (some (AlphaRawQuote.mk 2 2 2 2 2 2 "2%")))
    else .error "downA"
  yahoo := fun _ => .error "downY"

/-- Witness for the amended C4: requesting ["A", "B"] where "A" succeeds
and "B" fails yields the quote under "A" and an error marker naming "B";
the failure of "B" does not remove "A", and the unrequested "C" is
absent. -/
theorem claim_C4_amended_witness :
    jsGet (getMultipleStockPrices (StockState.mk [] []) envMixed 0 ["A", "B"]) "A" =
      some (BatchEntry.quote
        (Quote.mk "A" 2 2 2 2 (some 2) 2 (Sum.inr "2%") 0 "alpha_vantage")) ∧
    jsGet (getMultipleStockPrices (StockState.mk [] []) envMixed 0 ["A", "B"]) "B" =
      some (BatchEntry.errorMarker "B" "Unable to fetch data for B") ∧
    jsGet (getMultipleStockPrices (StockState.mk [] []) envMixed 0 ["A", "B"]) "C" =
      none := by
  have hecho : ∀ s ∈ ["A", "B"], ∀ q,
      (getStockPrice (StockState.mk [] []) envMixed 0 s).2 = .ok q →
      q.symbol = s := by
    intro s hs q h
    rcases List.mem_cons.mp hs with h1 | h1
    · subst h1
      rw [show (getStockPrice (StockState.mk [] []) envMixed 0 "A").2 =
          .ok (Quote.mk "A" 2 2 2 2 (some 2) 2 (Sum.inr "2%") 0 "alpha_vantage")
          from rfl] at h
      injection h with hh
      subst hh
      rfl
    · have h1b : s = "B" := by simpa using h1
      subst h1b
      rw [show (getStockPrice (StockState.mk [] []) envMixed 0 "B").2 =
          .error "Unable to fetch data for B" from rfl] at h
      exact Except.noConfusion h
  obtain ⟨h1, h2⟩ := claim_C4_amended (StockState.mk [] []) envMixed 0 ["A", "B"] hecho
  exact ⟨h1 "A" (by simp), h1 "B" (by simp), h2 "C" (by simp)⟩

/-! ### Claim C7 -/

theorem conf_score_full (now : Int) (d : ConfData)
    (hp : jsGtNum d.price 0 = true) (hv : jsGtNum d.volume 1000 = true)
    (hs : jsTruthy d.source = true)
    (ht : ∃ t, d.timestamp = some t ∧ now - t < 300000) :
    calculateConfidenceScore now (some d) = 9007199254740991 / 9007199254740992 := by
  obtain ⟨t, ht1, ht2⟩ := ht
  simp only [calculateConfidenceScore, hp, hv, hs, ht1, ht2, decide_True,
    if_true, dlit_half, dlit_fifth, dlit_tenth, dadd_half_fifth, dadd_07_01,
    dadd_08_01, dadd_09_01]
  rw [min_eq_left (by norm_num)]

/-- Claim C7 counterexample: in the IEEE-754 binary64 arithmetic the code
runs in, a quote with price 100, volume 5000, a source tag and a fresh
timestamp scores `0.5 + 0.2 + 0.1 + 0.1 + 0.1 = 0.9999999999999999`
(= 9007199254740991/2^53), which is not exactly 1.0 as the claim states. -/
theorem claim_C7_counterexample :
    calculateConfidenceScore 1000
        (some (ConfData.mk (some 100) (some 5000) (some "x") (some 1000))) =
      9007199254740991 / 9007199254740992 ∧
    calculateConfidenceScore 1000
        (some (ConfData.mk (some 100) (some 5000) (some "x") (some 1000))) ≠ 1 := by
  have h := conf_score_full 1000 (ConfData.mk (some 100) (some 5000) (some "x")
    (some 1000)) (by norm_num [jsGtNum]) (by norm_num [jsGtNum]) (by simp [jsTruthy])
    ⟨1000, rfl, by norm_num⟩
  exact ⟨h, by rw [h]; norm_num⟩

/-- Claim C7 amended: `calculateConfidenceScore` is deterministic and
computes, in binary64 arithmetic: the double 0.1 when the data object is
absent; otherwise 0.5 base, plus 0.2 if price > 0, plus 0.1 if
volume > 1000, plus 0.1 if a source tag is present, plus 0.1 if a
timestamp is present and within the last 5 minutes, clamped to at most
1.0 — so a quote with price=100, volume=5000, a source and a fresh
timestamp scores exactly 0.9999999999999999 (one rounding step below 1.0),
and a quote with only a positive price scores exactly 0.7 (0.5 + 0.2
rounds to the double 0.7). -/
theorem claim_C7_amended :
    (∀ now : Int,
      calculateConfidenceScore now none = 3602879701896397 / 36028797018963968) ∧
    (∀ (now : Int) (d : ConfData),
      jsGtNum d.price 0 = true → jsGtNum d.volume 1000 = true →
      jsTruthy d.source = true →
      (∃ t, d.timestamp = some t ∧ now - t < 300000) →
      calculateConfidenceScore now (some d) =
        9007199254740991 / 9007199254740992) ∧
    (∀ (now : Int) (price : ℚ), 0 < price →
      calculateConfidenceScore now (some (ConfData.mk (some price) none none none)) =
        3152519739159347 / 4503599627370496) ∧
    (∀ (now : Int) (data : Option ConfData),
      calculateConfidenceScore now data ≤ 1) := by
  refine ⟨?_, conf_score_full, ?_, ?_⟩
  · intro now
    rw [show calculateConfidenceScore now none = dlit (1 / 10) from rfl, dlit_tenth]
  · intro now price hp
    simp only [calculateConfidenceScore, jsGtNum, jsTruthy, hp, decide_True,
      if_true, if_false, Bool.false_eq_true, dlit_half, dlit_fifth,
      dadd_half_fifth]
    rw [min_eq_left (by norm_num)]
  · intro now data
    cases data with
    | none =>
        rw [show calculateConfidenceScore now none = dlit (1 / 10) from rfl,
          dlit_tenth]
        norm_num
    | some d =>
        simp only [calculateConfidenceScore]
        exact min_le_right _ _

/-- Witness for the amended C7 at concrete inputs: the absent-data score,
the all-bonus score (price 100, volume 5000, source "x", timestamp equal
to now), the price-only score at price 100, and the clamp at one concrete
data object. -/
theorem claim_C7_amended_witness :
    calculateConfidenceScore 0 none = 3602879701896397 / 36028797018963968 ∧
    calculateConfidenceScore 0
        (some (ConfData.mk (some 100) (some 5000) (some "x") (some 0))) =
      9007199254740991 / 9007199254740992 ∧
    calculateConfidenceScore 0 (some (ConfData.mk (some 100) none none none)) =
      3152519739159347 / 4503599627370496 ∧
    calculateConfidenceScore 0
        (some (ConfData.mk (some 100) (some 5000) (some "x") (some 0))) ≤ 1 := by
  obtain ⟨h1, h2, h3, h4⟩ := claim_C7_amended
  exact ⟨h1 0,
    h2 0 _ (by norm_num [jsGtNum]) (by norm_num [jsGtNum]) (by simp [jsTruthy])
      ⟨0, rfl, by norm_num⟩,
    h3 0 100 (by norm_num),
    h4 0 _⟩

/-! ### Claim C8 -/

theorem insertByPublishedDesc_perm (x : Article) (l : List Article) :
    List.Perm (insertByPublishedDesc x l) (x :: l) := by
  induction l with
  | nil => exact List.Perm.refl _
  | cons y rest ih =>
      by_cases h : y.publishedAt > x.publishedAt
      · simp only [insertByPublishedDesc, if_pos h]
        exact (ih.cons y).trans (List.Perm.swap x y rest)
      · simp only [insertByPublishedDesc, if_neg h]
        exact List.Perm.refl _

theorem sortByPublishedDesc_perm (l : List Article) :
    List.Perm (sortByPublishedDesc l) l := by
  induction l with
  | nil => exact List.Perm.refl _
  | cons x rest ih =>
      exact (insertByPublishedDesc_perm x (sortByPublishedDesc rest)).trans (ih.cons x)

theorem insertByPublishedDesc_sorted (x : Article) (l : List Article)
    (h : List.Pairwise (fun a b => b.publishedAt ≤ a.publishedAt) l) :
    List.Pairwise (fun a b => b.publishedAt ≤ a.publishedAt)
      (insertByPublishedDesc x l) := by
  induction l with
  | nil => simp [insertByPublishedDesc]
  | cons y rest ih =>
      rw [List.pairwise_cons] at h
      by_cases hyx : y.publishedAt > x.publishedAt
      · simp only [insertByPublishedDesc, if_pos hyx, List.pairwise_cons]
        refine ⟨fun z hz => ?_, ih h.2⟩
        rcases List.mem_cons.mp ((insertByPublishedDesc_perm x rest).mem_iff.mp hz)
          with hzx | hzr
        · rw [hzx]; exact le_of_lt hyx
        · exact h.1 z hzr
      · simp only [insertByPublishedDesc, if_neg hyx, List.pairwise_cons]
        refine ⟨fun z hz => ?_, ?_⟩
        · rcases List.mem_cons.mp hz with hzy | hzr
          · rw [hzy]; exact not_lt.mp hyx
          · exact le_trans (h.1 z hzr) (not_lt.mp hyx)
        · exact h

theorem sortByPublishedDesc_sorted (l : List Article) :
    List.Pairwise (fun a b => b.publishedAt ≤ a.publishedAt)
      (sortByPublishedDesc l) := by
  induction l with
  | nil => simp [sortByPublishedDesc]
  | cons x rest ih => exact insertByPublishedDesc_sorted x _ ih

theorem dedupeByTitle_sublist (seen : List String) (l : List Article) :
    (dedupeByTitle seen l).Sublist l := by
  induction l generalizing seen with
  | nil => simp [dedupeByTitle]
  | cons a rest ih =>
      by_cases h : a.title ∈ seen
      · simp only [dedupeByTitle, if_pos h]
        exact (ih seen).cons a
      · simp only [dedupeByTitle, if_neg h]
        exact (ih (a.title :: seen)).cons₂ a

theorem dedupeByTitle_nodup (seen : List String) (l : List Article) :
    ((dedupeByTitle seen l).map Article.title).Nodup ∧
      ∀ ttl ∈ (dedupeByTitle seen l).map Article.title, ttl ∉ seen := by
  induction l generalizing seen with
  | nil => simp [dedupeByTitle]
  | cons a rest ih =>
      by_cases h : a.title ∈ seen
      · simpa only [dedupeByTitle, if_pos h] using ih seen
      · obtain ⟨ihn, ihs⟩ := ih (a.title :: seen)
        simp only [dedupeByTitle, if_neg h, List.map_cons, List.nodup_cons]
        refine ⟨⟨fun hmem => ?_, ihn⟩, fun ttl httl => ?_⟩
        · exact (ihs a.title hmem) (List.mem_cons_self _ _)
        · rcases List.mem_cons.mp httl with h1 | h1
          · rw [h1]; exact h
          · exact fun hseen => (ihs ttl h1) (List.mem_cons_of_mem _ hseen)

theorem dedupeByTitle_covers (l : List Article) (seen : List String) :
    ∀ a ∈ l, a.title ∉ seen →
      ∃ b ∈ dedupeByTitle seen l, b.title = a.title := by
  induction l generalizing seen with
  | nil => intro a ha; cases ha
  | cons c rest ih =>
      intro a ha hseen
      by_cases hc : c.title ∈ seen
      · rcases List.mem_cons.mp ha with h1 | h1
        · rw [h1] at hseen; exact absurd hc hseen
        · simpa only [dedupeByTitle, if_pos hc] using ih seen a h1 hseen
      · simp only [dedupeByTitle, if_neg hc]
        rcases List.mem_cons.mp ha with h1 | h1
        · exact ⟨c, List.mem_cons_self _ _, by rw [h1]⟩
        · by_cases hac : a.title = c.title
          · exact ⟨c, List.mem_cons_self _ _, hac.symm⟩
          · obtain ⟨b, hb1, hb2⟩ := ih (c.title :: seen) a h1
              (by simp [hseen, hac])
            exact ⟨b, List.mem_cons_of_mem _ hb1, hb2⟩

/-- Claim C8 amended: for every symbol, `searchForStockNews` issues
exactly the 5 fixed query variants strictly sequentially, concatenates
their results, removes duplicates by exact case-sensitive title equality
(any two articles with identical titles collapse to one entry whose title
survives), sorts by publishedAt in descending (non-increasing) order —
articles with equal publish times may tie, so the order is not strict —
and returns at most 20 articles, each drawn from the 5 queries'
results. -/
theorem claim_C8_amended :
    ∀ (getNewsO : String → List Article) (symbol : String),
      (searchForStockNews getNewsO symbol).length ≤ 20 ∧
      ((searchForStockNews getNewsO symbol).map Article.title).Nodup ∧
      List.Pairwise (fun a b => b.publishedAt ≤ a.publishedAt)
        (searchForStockNews getNewsO symbol) ∧
      (∀ a ∈ searchForStockNews getNewsO symbol,
        a ∈ ((stockNewsQueries symbol).map getNewsO).flatten) ∧
      (∀ a ∈ ((stockNewsQueries symbol).map getNewsO).flatten,
        ∃ b ∈ dedupeByTitle []
          (sortByPublishedDesc (((stockNewsQueries symbol).map getNewsO).flatten)),
          b.title = a.title) := by
  intro getNewsO symbol
  refine ⟨?_, ?_, ?_, ?_, ?_⟩
  · rw [searchForStockNews, List.length_take]
    exact min_le_left _ _
  · rw [searchForStockNews, List.map_take]
    exact ((dedupeByTitle_nodup [] _).1).sublist (List.take_sublist _ _)
  · exact ((sortByPublishedDesc_sorted _).sublist
      (dedupeByTitle_sublist [] _)).sublist (List.take_sublist _ _)
  · intro a ha
    rw [searchForStockNews] at ha
    exact (sortByPublishedDesc_perm _).subset
      ((dedupeByTitle_sublist [] _).subset ((List.take_sublist _ _).subset ha))
  · intro a ha
    exact dedupeByTitle_covers _ [] a
      ((sortByPublishedDesc_perm _).symm.subset ha) (by simp)

/-- Two articles with different titles and the same publish time. -/
def artA : Article := Article.mk "t1" "" "u1" none 50 "s" ""

/-- Second article in the publish-time tie. -/
def artB : Article := Article.mk "t2" "" "u2" none 50 "s" ""

/-- A news oracle serving one tied article on each of two of the five
query variants. -/
def newsTie : String → List Article := fun q =>
  if q = "A" then [artA] else if q = "A stock" then [artB] else []

/-- Claim C8 counterexample: with two distinct-title articles sharing one
publishedAt, the returned order carries an equal-time tie, so it is not
strictly descending by publishedAt as the claim states. -/
theorem claim_C8_counterexample :
    searchForStockNews newsTie "A" = [artA, artB] ∧
    ¬ List.Pairwise (fun a b => b.publishedAt < a.publishedAt)
      (searchForStockNews newsTie "A") := by
  constructor
  · rfl
  · rw [show searchForStockNews newsTie "A" = [artA, artB] from rfl]
    decide

/-- Witness for the amended C8 at the concrete oracle: the bound, a
member of the output drawn from the queries, and title coverage of the
second article. -/
theorem claim_C8_amended_witness :
    (searchForStockNews newsTie "A").length ≤ 20 ∧
    artA ∈ searchForStockNews newsTie "A" ∧
    artA ∈ ((stockNewsQueries "A").map newsTie).flatten ∧
    ∃ b ∈ dedupeByTitle []
        (sortByPublishedDesc (((stockNewsQueries "A").map newsTie).flatten)),
      b.title = artB.title := by
  obtain ⟨h1, _h2, _h3, h4, h5⟩ := claim_C8_amended newsTie "A"
  have hmemA : artA ∈ searchForStockNews newsTie "A" := by
    rw [show searchForStockNews newsTie "A" = [artA, artB] from rfl]
    exact List.mem_cons_self _ _
  have hmemB : artB ∈ ((stockNewsQueries "A").map newsTie).flatten := by decide
  exact ⟨h1, hmemA, h4 artA hmemA, h5 artB hmemB⟩
